import Mathlib

/-!
# Verification of src/verdi_llm/cli/generate_verdi_cli_json.py

A shallow embedding of the help-text parser and tree walker of
generate_verdi_cli_json.py, together with theorems settling the claims of
the specification.  Python strings are embedded as Lean strings
(lists of characters); the whitespace-sensitive Python primitives
(strip, startswith, split, join, and the regex split on a run of
two-or-more whitespace characters with maxsplit 1) are reimplemented
character by character below so that every definition evaluates by
kernel reduction.
-/

namespace VerdiLLM

/-- Whitespace as Python defines it for strip and for the regex
whitespace class: space, tab, linefeed, carriage return, vertical tab,
form feed. -/
def isPySpace (c : Char) : Bool :=
  c = ' ' || c = '\t' || c = '\n' || c = '\r' || c = '\x0b' || c = '\x0c'

/-- Drop leading Python whitespace from a character list. -/
def dropLeadingSpace : List Char → List Char
  | [] => []
  | c :: rest => if isPySpace c then dropLeadingSpace rest else c :: rest

/-- Embedding of the Python expression s.strip(): remove leading and
trailing whitespace. -/
def pyStrip (s : String) : String :=
  ⟨(dropLeadingSpace (dropLeadingSpace s.data.reverse).reverse)⟩

/-- Embedding of the Python expression s.startswith(pre): character-level
prefix test. -/
def pyStartsWith (s pre : String) : Bool :=
  pre.data.isPrefixOf s.data

/-- Embedding of the Python slice s[n:] (character based). -/
def pyDrop (s : String) (n : Nat) : String :=
  ⟨s.data.drop n⟩

/-- Helper for splitting on a separator character, accumulating the
current piece in reverse. -/
def splitCharAux (sep : Char) : List Char → List Char → List String
  | [], cur => [⟨cur.reverse⟩]
  | c :: rest, cur =>
    if c = sep then ⟨cur.reverse⟩ :: splitCharAux sep rest []
    else splitCharAux sep rest (c :: cur)

/-- Embedding of the Python expression s.split(sep) for a one-character
separator: keeps empty pieces, and the empty string yields one empty
piece. -/
def pySplitChar (sep : Char) (s : String) : List String :=
  splitCharAux sep s.data []

/-- Embedding of the Python expression sep.join(pieces). -/
def pyJoin (sep : String) : List String → String
  | [] => ""
  | s :: rest => rest.foldl (fun a b => a ++ sep ++ b) s

/-- Drop a maximal run of whitespace characters at the front. -/
def dropSpaceRun : List Char → List Char
  | [] => []
  | c :: rest => if isPySpace c then dropSpaceRun rest else c :: rest

/-- Find the first run of two-or-more whitespace characters; return the
part before the run and the part after the maximal run, if such a run
exists.  Character-level core of the Python call
re.split(two-or-more-whitespace, s, 1). -/
def splitRun : List Char → Option (List Char × List Char)
  | [] => none
  | [_] => none
  | c1 :: c2 :: rest =>
    if isPySpace c1 && isPySpace c2 then
      some ([], dropSpaceRun rest)
    else
      match splitRun (c2 :: rest) with
      | some (pre, post) => some (c1 :: pre, post)
      | none => none

/-- Embedding of the Python call re.split(two-or-more-whitespace, s, 1):
a one-element list when the pattern does not occur, otherwise the text
before the first whitespace run and the text after it. -/
def reSplit2 (s : String) : List String :=
  match splitRun s.data with
  | none => [s]
  | some (pre, post) => [⟨pre⟩, ⟨post⟩]

/-- Record for an option parsed from the help text: the raw comma-joined
flag text and the (possibly continuation-accumulated) description.
Mirrors the Python dict with keys flags and description. -/
structure OptionInfo where
  flags : String
  description : String
deriving DecidableEq, Repr

/-- Record for one output row: mirrors the Python dict with keys command,
usage, description. -/
structure CatalogEntry where
  command : String
  usage : String
  description : String
deriving DecidableEq, Repr

/-- Embedding of parse_usage from the source: the text after the first
line with prefix "Usage: ", stripped; the empty string when no such line
exists. -/
def parse_usage : List String → String
  | [] => ""
  | line :: rest =>
    if pyStartsWith line "Usage: " then pyStrip (pyDrop line 7)
    else parse_usage rest

/-- Loop body of parse_description: accumulate stripped non-empty
lines that do not carry the usage prefix, until a header line for the
options or commands section. -/
def descriptionLoop : List String → List String
  | [] => []
  | line :: rest =>
    let stripped_line := pyStrip line
    if pyStartsWith stripped_line "Options:" || pyStartsWith stripped_line "Commands:" then
      []
    else if stripped_line ≠ "" && !pyStartsWith line "Usage: " then
      stripped_line :: descriptionLoop rest
    else
      descriptionLoop rest

/-- Embedding of parse_description from the source: space-joined
accumulated lines. -/
def parse_description (lines : List String) : String :=
  pyJoin " " (descriptionLoop lines)

/-- Append a suffix to the description of the last option in the list.
The Python code mutates current_option in place; that dict is always the
most recently appended element of options and is never reset, so the
mutation is exactly an update of the last list element. -/
def appendToLast (options : List OptionInfo) (suffix : String) : List OptionInfo :=
  match options with
  | [] => []
  | o :: rest =>
    if rest = [] then [⟨o.flags, o.description ++ suffix⟩]
    else o :: appendToLast rest suffix

/-- Loop of parse_options over the remaining lines.  The flag in_options
records whether a header "Options:" has been seen; options is the
accumulated option list (the Python variable current_option is its last
element, present exactly when the list is non-empty). -/
def optionsLoop : List String → Bool → List OptionInfo → List OptionInfo
  | [], _, options => options
  | line :: rest, in_options, options =>
    let stripped_line := pyStrip line
    if pyStartsWith stripped_line "Options:" then
      optionsLoop rest true options
    else if in_options then
      if pyStartsWith stripped_line "Commands:" || pyStartsWith stripped_line "Arguments:"
          || (stripped_line ≠ "" && !pyStartsWith line " ") then
        options
      else if pyStartsWith stripped_line "-" then
        let parts := reSplit2 stripped_line
        let flags := pyStrip (parts.headD "")
        let desc := match parts with
          | _ :: d :: _ => pyStrip d
          | _ => ""
        optionsLoop rest true (options ++ [⟨flags, desc⟩])
      else if options ≠ [] && stripped_line ≠ "" then
        optionsLoop rest true (appendToLast options (" " ++ stripped_line))
      else
        optionsLoop rest true options
    else
      optionsLoop rest in_options options

/-- Embedding of parse_options from the source. -/
def parse_options (lines : List String) : List OptionInfo :=
  optionsLoop lines false []

/-- Loop of parse_sub_commands over the remaining lines. -/
def subCommandsLoop : List String → Bool → List String → List String
  | [], _, sub_commands => sub_commands
  | line :: rest, in_commands, sub_commands =>
    let stripped_line := pyStrip line
    if pyStartsWith stripped_line "Commands:" then
      subCommandsLoop rest true sub_commands
    else if in_commands then
      if pyStartsWith stripped_line "Options:" || pyStartsWith stripped_line "Arguments:"
          || (stripped_line ≠ "" && !pyStartsWith line " ") then
        sub_commands
      else if stripped_line ≠ "" then
        subCommandsLoop rest true
          (sub_commands ++ [pyStrip ((reSplit2 stripped_line).headD "")])
      else
        subCommandsLoop rest true sub_commands
    else
      subCommandsLoop rest in_commands sub_commands

/-- Embedding of parse_sub_commands from the source. -/
def parse_sub_commands (lines : List String) : List String :=
  subCommandsLoop lines false []

/-- Outcome of one external help invocation as observed by
get_help_output: either the subprocess ran and its standard output
decoded to a string, or the attempt raised (spawn failure, decode
failure, or the 30-second timeout of asyncio.wait_for — the source
catches every Exception alike, so one constructor covers them all). -/
inductive InvokeResult where
  | ok (stdout : String)
  | err
deriving DecidableEq, Repr

/-- Embedding of get_help_output from the source: the decoded standard
output, stripped, on success; the empty string on any exception (the
except clause prints a diagnostic and returns the empty string). -/
def get_help_output : InvokeResult → String
  | .ok stdout => pyStrip stdout
  | .err => ""

/-- Per-option entry generation of process_command (the loop over
options): split the flags text on the comma, strip each piece, skip the
option when "-h" is among the pieces, otherwise build one entry. -/
def option_entries (command_path : List String) (usage description : String)
    (options : List OptionInfo) : List CatalogEntry :=
  options.filterMap fun option =>
    let flags := (pySplitChar ',' option.flags).map pyStrip
    if "-h" ∈ flags then none
    else
      let combined_flags := pyJoin " / " flags
      let full_command := "verdi " ++ pyJoin " " (command_path ++ [combined_flags])
      some ⟨full_command, usage, pyStrip (description ++ " " ++ option.description)⟩

/-- Leaf entry appended by process_command for a node with no
sub-commands. -/
def leaf_entry (command_path : List String) (usage description : String) : CatalogEntry :=
  ⟨"verdi " ++ pyJoin " " command_path, usage, pyStrip description⟩

/-- Embedding of process_command from the source, as the sequence of
entries the traversal appends for the subtree rooted at command_path.
The external world is a function invoke from command paths to invocation
outcomes; the async fan-out over sub-commands is linearized in list
order (the source promises no cross-node order, so one linearization is
faithful to every node-local claim).  The fuel bounds the recursion
depth: the Python recursion terminates only because the external command
tree is finite. -/
def process_command (fuel : Nat) (invoke : List String → InvokeResult)
    (command_path : List String) : List CatalogEntry :=
  match fuel with
  | 0 => []
  | fuel + 1 =>
    let help_text := get_help_output (invoke command_path)
    if help_text = "" then []
    else
      let lines := pySplitChar '\n' help_text
      let usage := parse_usage lines
      let description := parse_description lines
      let options := parse_options lines
      let sub_commands := parse_sub_commands lines
      option_entries command_path usage description options ++
        (if sub_commands = [] then
          [leaf_entry command_path usage description]
        else
          sub_commands.flatMap fun sub_cmd =>
            process_command fuel invoke (command_path ++ [sub_cmd]))

/-- Help-text lines a node observes: standard output of the invocation
for the path, stripped, split on newlines. -/
def node_lines (invoke : List String → InvokeResult) (command_path : List String) :
    List String :=
  pySplitChar '\n' (get_help_output (invoke command_path))

/-- Option-derived entries a node appends for its own path. -/
def node_option_entries (invoke : List String → InvokeResult)
    (command_path : List String) : List CatalogEntry :=
  option_entries command_path (parse_usage (node_lines invoke command_path))
    (parse_description (node_lines invoke command_path))
    (parse_options (node_lines invoke command_path))

/-- Leaf entry a node would append for its own path. -/
def node_leaf_entry (invoke : List String → InvokeResult)
    (command_path : List String) : CatalogEntry :=
  leaf_entry command_path (parse_usage (node_lines invoke command_path))
    (parse_description (node_lines invoke command_path))

/-! ## Concurrency model for the semaphore bound

The function process_command wraps only the external invocation in the
scope of the semaphore; parsing, entry generation and recursion happen
after the permit is released.  The cooperative scheduler is modelled as
a step relation on an abstract state: each live traversal task is in one
of three phases, and permits counts the free slots of the semaphore. -/

/-- Constant CONCURRENCY_LIMIT from the source. -/
def CONCURRENCY_LIMIT : Nat := 10

/-- Phase of one process_command task:
waiting — before the semaphore grants a slot;
invoking — inside the semaphore scope, the external help call in
flight, one permit held;
working — after the scope exits (permit released): parsing, entry
generation, spawning recursive children. -/
inductive TaskPhase where
  | waiting
  | invoking
  | working
deriving DecidableEq, Repr

/-- Scheduler state: free semaphore slots and the phases of the live
tasks. -/
structure SchedState where
  permits : Nat
  tasks : List TaskPhase
deriving DecidableEq, Repr

/-- Number of external invocations currently in flight. -/
def countInvoking (s : SchedState) : Nat :=
  s.tasks.countP (fun c => c = TaskPhase.invoking)

/-- One cooperative scheduling step:
acquire — a waiting task enters the semaphore scope, which requires a
free slot and consumes it;
release — an invoking task returns from get_help_output and leaves the
scope, freeing its slot before any parsing happens;
spawn — a working task finishes its own step, replacing itself by its
recursive children, each of which starts before its own semaphore
acquisition and is therefore waiting. -/
inductive SchedStep : SchedState → SchedState → Prop where
  | acquire (n : Nat) (pre post : List TaskPhase) :
      SchedStep ⟨n + 1, pre ++ TaskPhase.waiting :: post⟩
        ⟨n, pre ++ TaskPhase.invoking :: post⟩
  | release (n : Nat) (pre post : List TaskPhase) :
      SchedStep ⟨n, pre ++ TaskPhase.invoking :: post⟩
        ⟨n + 1, pre ++ TaskPhase.working :: post⟩
  | spawn (n : Nat) (pre post children : List TaskPhase)
      (h : ∀ c ∈ children, c = TaskPhase.waiting) :
      SchedStep ⟨n, pre ++ TaskPhase.working :: post⟩ ⟨n, pre ++ children ++ post⟩

/-- States reachable from s by cooperative scheduling steps. -/
inductive SchedReachable (s : SchedState) : SchedState → Prop where
  | refl : SchedReachable s s
  | tail {t u : SchedState} : SchedReachable s t → SchedStep t u → SchedReachable s u

/-- Initial state of main: a fresh semaphore with CONCURRENCY_LIMIT free
slots and the single root task for the empty command path. -/
def initState : SchedState :=
  ⟨CONCURRENCY_LIMIT, [TaskPhase.waiting]⟩

/-- Condition under which the active options loop breaks at a line: the
stripped line does not re-trigger the header check (which the code runs
first and which skips the line), and it either starts a commands or
arguments section or is non-empty yet unindented — the indentation test
reads the original, untrimmed line. -/
def optionsBoundary (line : String) : Bool :=
  !pyStartsWith (pyStrip line) "Options:"
    && (pyStartsWith (pyStrip line) "Commands:" || pyStartsWith (pyStrip line) "Arguments:"
        || (pyStrip line ≠ "" && !pyStartsWith line " "))

/-- Condition under which the active sub-commands loop breaks at a line;
symmetric to optionsBoundary with the roles of the two headers
exchanged. -/
def commandsBoundary (line : String) : Bool :=
  !pyStartsWith (pyStrip line) "Commands:"
    && (pyStartsWith (pyStrip line) "Options:" || pyStartsWith (pyStrip line) "Arguments:"
        || (pyStrip line ≠ "" && !pyStartsWith line " "))

/-- Help text of the walkthrough example in the specification. -/
def exampleLines : List String :=
  ["Usage: tool sub [OPTIONS]", "", "Does a thing.", "", "Options:",
   "  -h, --help     Show help.", "  -v, --verbose  Be verbose.",
   "                 Very verbose.", "Commands:", "  foo  Does foo.",
   "  bar  Does bar."]

/-- Walkthrough example help text as one string. -/
def exampleHelp : String := pyJoin "\n" exampleLines

/-- Invoker whose root node returns the walkthrough example help text and
whose every other node fails. -/
def exampleInvoke : List String → InvokeResult :=
  fun path => if path = [] then .ok exampleHelp else .err

/-- Help text of a leaf command: options but no commands section. -/
def leafLines : List String :=
  ["Usage: tool leaf [OPTIONS]", "", "Leaf thing.", "", "Options:",
   "  -h, --help  Show help.", "  -f, --force  Force it."]

/-- Leaf help text as one string. -/
def leafHelp : String := pyJoin "\n" leafLines

/-- Invoker whose root node returns the leaf help text and whose every
other node fails. -/
def leafInvoke : List String → InvokeResult :=
  fun path => if path = [] then .ok leafHelp else .err

/-- Invoker for which every invocation raises. -/
def errInvoke : List String → InvokeResult := fun _ => .err

/-- Invoker for which every invocation succeeds with whitespace-only
standard output. -/
def blankInvoke : List String → InvokeResult := fun _ => .ok "  \t  "

/-! ## Helper lemmas -/

theorem parse_usage_of_no_usage_line (lines : List String)
    (h : ∀ l ∈ lines, pyStartsWith l "Usage: " = false) :
    parse_usage lines = "" := by
  induction lines with
  | nil => rfl
  | cons line rest ih =>
    have hl := h line (List.mem_cons_self line rest)
    simp only [parse_usage, hl, Bool.false_eq_true, if_false]
    exact ih fun l hm => h l (List.mem_cons_of_mem line hm)

theorem optionsLoop_inactive (lines : List String) (options : List OptionInfo)
    (h : ∀ l ∈ lines, pyStartsWith (pyStrip l) "Options:" = false) :
    optionsLoop lines false options = options := by
  induction lines with
  | nil => rfl
  | cons line rest ih =>
    have hl := h line (List.mem_cons_self line rest)
    simp only [optionsLoop, hl, Bool.false_eq_true, if_false]
    exact ih fun l hm => h l (List.mem_cons_of_mem line hm)

theorem dropLeadingSpace_of_all_space (l : List Char)
    (h : ∀ c ∈ l, isPySpace c = true) : dropLeadingSpace l = [] := by
  induction l with
  | nil => rfl
  | cons c rest ih =>
    simp only [dropLeadingSpace, h c (List.mem_cons_self c rest), if_true]
    exact ih fun d hm => h d (List.mem_cons_of_mem c hm)

theorem pyStrip_of_all_space (s : String) (h : ∀ c ∈ s.data, isPySpace c = true) :
    pyStrip s = "" := by
  have h1 : dropLeadingSpace s.data.reverse = [] :=
    dropLeadingSpace_of_all_space _ fun c hc => h c (List.mem_reverse.mp hc)
  simp only [pyStrip, h1, List.reverse_nil, dropLeadingSpace]

theorem appendToLast_append (os : List OptionInfo) (o : OptionInfo) (suffix : String) :
    appendToLast (os ++ [o]) suffix = os ++ [⟨o.flags, o.description ++ suffix⟩] := by
  induction os with
  | nil => simp [appendToLast]
  | cons a os ih =>
    have hne : os ++ [o] ≠ [] := by simp
    simp only [List.cons_append, appendToLast, List.append_eq]
    rw [if_neg hne, ih]

theorem process_command_of_empty_help (fuel : Nat)
    (invoke : List String → InvokeResult) (command_path : List String)
    (h : get_help_output (invoke command_path) = "") :
    process_command fuel invoke command_path = [] := by
  cases fuel with
  | zero => rfl
  | succ n => simp [process_command, h]

theorem process_command_leaf (fuel : Nat) (invoke : List String → InvokeResult)
    (command_path : List String) (h : get_help_output (invoke command_path) ≠ "")
    (hs : parse_sub_commands (node_lines invoke command_path) = []) :
    process_command (fuel + 1) invoke command_path =
      node_option_entries invoke command_path ++ [node_leaf_entry invoke command_path] := by
  simp only [node_lines] at hs
  simp [process_command, node_option_entries, node_leaf_entry, node_lines, h, hs]

theorem process_command_branch (fuel : Nat) (invoke : List String → InvokeResult)
    (command_path : List String) (h : get_help_output (invoke command_path) ≠ "")
    (hs : parse_sub_commands (node_lines invoke command_path) ≠ []) :
    process_command (fuel + 1) invoke command_path =
      node_option_entries invoke command_path ++
        (parse_sub_commands (node_lines invoke command_path)).flatMap
          (fun sub_cmd => process_command fuel invoke (command_path ++ [sub_cmd])) := by
  simp only [node_lines] at hs
  simp [process_command, node_option_entries, node_leaf_entry, node_lines, h, hs]

/-! ## Claims -/

/-- Claim C1: on the walkthrough help text of the specification,
parse_usage returns "tool sub [OPTIONS]", parse_description returns
"Does a thing.", parse_options returns exactly the help option and the
verbose option with its continuation folded in, in that order, and
parse_sub_commands returns exactly the two command names in order. -/
theorem c1_example_facets :
    parse_usage exampleLines = "tool sub [OPTIONS]" ∧
    parse_description exampleLines = "Does a thing." ∧
    parse_options exampleLines =
      [⟨"-h, --help", "Show help."⟩, ⟨"-v, --verbose", "Be verbose. Very verbose."⟩] ∧
    parse_sub_commands exampleLines = ["foo", "bar"] := by
  decide

/-- Claim C5: when the external invocation for a path fails for any
reason (spawn failure, decode failure, timeout — all caught alike),
get_help_output returns the empty string without raising, and
process_command for that path appends no entries and performs no
recursive calls; being a total function of the remaining tree, the
failure cannot abort or corrupt sibling or ancestor nodes. -/
theorem c5_invocation_failure (fuel : Nat) (invoke : List String → InvokeResult)
    (command_path : List String) (h : invoke command_path = .err) :
    get_help_output (invoke command_path) = "" ∧
    process_command fuel invoke command_path = [] := by
  have hg : get_help_output (invoke command_path) = "" := by rw [h]; rfl
  exact ⟨hg, process_command_of_empty_help fuel invoke command_path hg⟩

/-- Witness for claim C5 at a concrete failing invoker. -/
theorem c5_invocation_failure_witness :
    get_help_output (errInvoke []) = "" ∧ process_command 3 errInvoke [] = [] :=
  c5_invocation_failure 3 errInvoke [] rfl

/-- Claim C10: a successful invocation whose decoded standard output is
all whitespace is indistinguishable from a failed one: get_help_output
strips it to the empty string and process_command appends no entries and
does not recurse for that path. -/
theorem c10_blank_output (fuel : Nat) (invoke : List String → InvokeResult)
    (command_path : List String) (s : String) (h : invoke command_path = .ok s)
    (hw : ∀ c ∈ s.data, isPySpace c = true) :
    get_help_output (invoke command_path) = "" ∧
    process_command fuel invoke command_path = [] := by
  have hg : get_help_output (invoke command_path) = "" := by
    rw [h]
    exact pyStrip_of_all_space s hw
  exact ⟨hg, process_command_of_empty_help fuel invoke command_path hg⟩

/-- Witness for claim C10 at a concrete whitespace-only output. -/
theorem c10_blank_output_witness :
    get_help_output (blankInvoke []) = "" ∧ process_command 2 blankInvoke [] = [] :=
  c10_blank_output 2 blankInvoke [] "  \t  " rfl (by decide)

/-- Claim C7: the four parsing functions are total Lean functions, the
empty input yields the empty defaults, a help text with no line carrying
the usage prefix yields an empty usage, and a help text with no options
header yields an empty option list. -/
theorem c7_parsers_total_defaults :
    parse_usage [] = "" ∧ parse_description [] = "" ∧ parse_options [] = [] ∧
    parse_sub_commands [] = [] ∧
    (∀ lines : List String, (∀ l ∈ lines, pyStartsWith l "Usage: " = false) →
      parse_usage lines = "") ∧
    (∀ lines : List String, (∀ l ∈ lines, pyStartsWith (pyStrip l) "Options:" = false) →
      parse_options lines = []) := by
  refine ⟨rfl, rfl, rfl, rfl, parse_usage_of_no_usage_line, ?_⟩
  intro lines h
  exact optionsLoop_inactive lines [] h

/-- Witness for claim C7 on a concrete header-free help text. -/
theorem c7_parsers_total_defaults_witness :
    parse_usage ["hello", " world"] = "" ∧ parse_options ["hello", " world"] = [] :=
  ⟨c7_parsers_total_defaults.2.2.2.2.1 ["hello", " world"] (by decide),
   c7_parsers_total_defaults.2.2.2.2.2 ["hello", " world"] (by decide)⟩

/-- Claim C2: for a node with non-empty help text, an empty parsed
sub-command list makes process_command append exactly one leaf entry for
the path, after its option-derived entries; a non-empty sub-command list
makes it append only the option entries followed by the recursive
entries of the children — no leaf entry for the path itself. -/
theorem c2_leaf_vs_branch (fuel : Nat) (invoke : List String → InvokeResult)
    (command_path : List String) (h : get_help_output (invoke command_path) ≠ "") :
    (parse_sub_commands (node_lines invoke command_path) = [] →
      process_command (fuel + 1) invoke command_path =
        node_option_entries invoke command_path ++ [node_leaf_entry invoke command_path]) ∧
    (parse_sub_commands (node_lines invoke command_path) ≠ [] →
      process_command (fuel + 1) invoke command_path =
        node_option_entries invoke command_path ++
          (parse_sub_commands (node_lines invoke command_path)).flatMap
            (fun sub_cmd => process_command fuel invoke (command_path ++ [sub_cmd]))) :=
  ⟨process_command_leaf fuel invoke command_path h,
   process_command_branch fuel invoke command_path h⟩

/-- Witness for claim C2 on the walkthrough example, a branch node. -/
theorem c2_leaf_vs_branch_witness :
    process_command 1 exampleInvoke [] =
      node_option_entries exampleInvoke [] ++
        (parse_sub_commands (node_lines exampleInvoke [])).flatMap
          (fun sub_cmd => process_command 0 exampleInvoke ([] ++ [sub_cmd])) :=
  (c2_leaf_vs_branch 0 exampleInvoke [] (by decide)).2 (by decide)

/-- Claim C8: for a node that produces a leaf entry, every option-derived
entry of that node sits at an earlier position of the appended sequence
than the leaf entry, which sits right after them. -/
theorem c8_option_entries_precede_leaf (fuel : Nat)
    (invoke : List String → InvokeResult) (command_path : List String)
    (h : get_help_output (invoke command_path) ≠ "")
    (hs : parse_sub_commands (node_lines invoke command_path) = []) :
    (process_command (fuel + 1) invoke command_path).length =
      (node_option_entries invoke command_path).length + 1 ∧
    (process_command (fuel + 1) invoke command_path)[(node_option_entries invoke
      command_path).length]? = some (node_leaf_entry invoke command_path) ∧
    (∀ i, i < (node_option_entries invoke command_path).length →
      (process_command (fuel + 1) invoke command_path)[i]? =
        (node_option_entries invoke command_path)[i]?) := by
  have he := process_command_leaf fuel invoke command_path h hs
  rw [he]
  refine ⟨by simp, ?_, ?_⟩
  · rw [List.getElem?_append_right (le_refl _)]
    simp
  · intro i hi
    rw [List.getElem?_append, if_pos hi]

/-- Witness for claim C8 on the concrete leaf help text. -/
theorem c8_option_entries_precede_leaf_witness :
    (process_command 1 leafInvoke [])[(node_option_entries leafInvoke []).length]? =
      some (node_leaf_entry leafInvoke []) :=
  (c8_option_entries_precede_leaf 0 leafInvoke [] (by decide) (by decide)).2.1

/-- Claim C3: an option whose comma-split, stripped flags contain the
token "-h" yields no entry; any other option yields exactly one entry
whose command joins the root name, path and slash-joined flag variants,
whose usage is the parsed usage, and whose description is the top-level
description, a space, the option description, stripped.  The exclusion
happens at entry generation only: the parser itself still returns the
help option of the walkthrough example while its entry list omits it. -/
theorem c3_option_entry_shape (command_path : List String)
    (usage description : String) (option : OptionInfo) (pre post : List OptionInfo) :
    (option_entries command_path usage description (pre ++ option :: post) =
      option_entries command_path usage description pre ++
        (if "-h" ∈ (pySplitChar ',' option.flags).map pyStrip then []
         else [⟨"verdi " ++ pyJoin " " (command_path ++
                  [pyJoin " / " ((pySplitChar ',' option.flags).map pyStrip)]),
               usage, pyStrip (description ++ " " ++ option.description)⟩]) ++
        option_entries command_path usage description post) ∧
    (⟨"-h, --help", "Show help."⟩ : OptionInfo) ∈ parse_options exampleLines ∧
    option_entries ["sub"] (parse_usage exampleLines) (parse_description exampleLines)
        (parse_options exampleLines) =
      [⟨"verdi sub -v / --verbose", "tool sub [OPTIONS]",
        "Does a thing. Be verbose. Very verbose."⟩] := by
  refine ⟨?_, by decide, by decide⟩
  by_cases hm : "-h" ∈ (pySplitChar ',' option.flags).map pyStrip
  · simp only [option_entries, List.filterMap_append, List.filterMap_cons]
    rw [if_pos hm, if_pos hm]
    simp
  · simp only [option_entries, List.filterMap_append, List.filterMap_cons]
    rw [if_neg hm, if_neg hm]
    simp

/-- Counterexample to claim C4 as stated: once the options loop is
active, the line "Options: x" is non-empty with an unindented original,
so the claimed boundary rule demands that collection stop there; the
code instead treats every line whose stripped form starts with
"Options:" as a header, skips it, and keeps collecting, so the later
option line still contributes. -/
theorem c4_counterexample :
    optionsLoop ["Options: x", "  -b  B"] true [⟨"-a", "A"⟩] ≠ [⟨"-a", "A"⟩] ∧
    parse_options ["Options:", "  -a  A", "Options: x", "  -b  B"] =
      [⟨"-a", "A"⟩, ⟨"-b", "B"⟩] := by
  decide

/-- Claim C4 as amended: with the proviso that the line does not strip-
start with the "Options:" header (for the options loop) respectively the
"Commands:" header (for the sub-commands loop) — such lines are consumed
by the header check first — an active loop stops at a boundary line and
no line at or after it contributes; the indentation half of the boundary
test reads the untrimmed line. -/
theorem c4_section_boundary (line : String) (post : List String)
    (options : List OptionInfo) (sub_commands : List String) :
    (optionsBoundary line = true → optionsLoop (line :: post) true options = options) ∧
    (commandsBoundary line = true →
      subCommandsLoop (line :: post) true sub_commands = sub_commands) := by
  constructor
  · intro hb
    simp only [optionsBoundary, Bool.and_eq_true, Bool.not_eq_true'] at hb
    obtain ⟨h1, h2⟩ := hb
    simp only [Bool.or_eq_true, Bool.and_eq_true, Bool.not_eq_true',
      decide_eq_true_eq] at h2
    rcases h2 with (h2 | h2) | ⟨h2a, h2b⟩
    · simp [optionsLoop, h1, h2]
    · simp [optionsLoop, h1, h2]
    · simp [optionsLoop, h1, h2a, h2b]
  · intro hb
    simp only [commandsBoundary, Bool.and_eq_true, Bool.not_eq_true'] at hb
    obtain ⟨h1, h2⟩ := hb
    simp only [Bool.or_eq_true, Bool.and_eq_true, Bool.not_eq_true',
      decide_eq_true_eq] at h2
    rcases h2 with (h2 | h2) | ⟨h2a, h2b⟩
    · simp [subCommandsLoop, h1, h2]
    · simp [subCommandsLoop, h1, h2]
    · simp [subCommandsLoop, h1, h2a, h2b]

/-- Witness for claim C4 at two concrete boundary lines. -/
theorem c4_section_boundary_witness :
    optionsLoop ["Commands:", "  -x  D"] true [] = [] ∧
    subCommandsLoop ["Arguments:", "  foo  F"] true [] = [] :=
  ⟨(c4_section_boundary "Commands:" ["  -x  D"] [] []).1 (by decide),
   (c4_section_boundary "Arguments:" ["  foo  F"] [] []).2 (by decide)⟩

/-- Counterexample to claim C6 as stated: the indented line
"  Options: note" is non-empty after stripping, does not start with "-",
and leaves the section active, so the claimed rule demands it be
appended to the open option; the code instead consumes it in the header
check and appends nothing, while the following plain line is appended. -/
theorem c6_counterexample :
    optionsLoop ["  Options: note"] true [⟨"-a", "A"⟩] ≠
      [⟨"-a", "A Options: note"⟩] ∧
    parse_options ["Options:", "  -a  A", "  Options: note", "  more"] =
      [⟨"-a", "A more"⟩] := by
  decide

/-- Claim C6 as amended: a continuation line — non-empty when stripped,
not starting with "-", not strip-starting with the "Options:" header,
and not a section boundary — is appended to the description of the most
recently opened option, separated by a single space; this holds for
every open option, including one whose option line had no two-space run
and so began with an empty description. -/
theorem c6_continuation_append (line : String) (post : List String)
    (os : List OptionInfo) (o : OptionInfo)
    (h1 : pyStrip line ≠ "")
    (h2 : pyStartsWith (pyStrip line) "-" = false)
    (h3 : pyStartsWith (pyStrip line) "Options:" = false)
    (h4 : optionsBoundary line = false) :
    optionsLoop (line :: post) true (os ++ [o]) =
      optionsLoop post true (os ++ [⟨o.flags, o.description ++ " " ++ pyStrip line⟩]) := by
  have h5 : (pyStartsWith (pyStrip line) "Commands:"
      || pyStartsWith (pyStrip line) "Arguments:"
      || (decide (pyStrip line ≠ "") && !pyStartsWith line " ")) = false := by
    simp only [optionsBoundary, h3, Bool.not_false, Bool.true_and] at h4
    exact h4
  simp only [Bool.or_eq_false_iff, Bool.and_eq_false_iff, Bool.not_eq_false',
    decide_eq_false_iff_not, not_not] at h5
  obtain ⟨⟨ha, hb⟩, hcd⟩ := h5
  have hc : pyStartsWith line " " = true := by
    rcases hcd with hcd | hcd
    · exact absurd hcd h1
    · exact hcd
  have hne : os ++ [o] ≠ [] := by simp
  simp [optionsLoop, h1, h2, h3, ha, hb, hc, hne, appendToLast_append,
    String.append_assoc]

/-- Witness for claim C6 at a concrete continuation after an option with
an empty description. -/
theorem c6_continuation_append_witness :
    optionsLoop ["    more"] true [⟨"-x", ""⟩] =
      optionsLoop [] true [⟨"-x", "" ++ " " ++ pyStrip "    more"⟩] :=
  c6_continuation_append "    more" [] [] ⟨"-x", ""⟩ (by decide) (by decide)
    (by decide) (by decide)

/-- Every scheduling step preserves the sum of free permits and in-flight
invocations: a permit is taken exactly when an invocation starts and
freed exactly when it returns. -/
theorem sched_step_invariant {s t : SchedState} (h : SchedStep s t) :
    t.permits + countInvoking t = s.permits + countInvoking s := by
  cases h with
  | acquire n pre post =>
    simp only [countInvoking, List.countP_append, List.countP_cons]
    simp
    omega
  | release n pre post =>
    simp only [countInvoking, List.countP_append, List.countP_cons]
    simp
    omega
  | spawn n pre post children hch =>
    have hz : children.countP (fun c => decide (c = TaskPhase.invoking)) = 0 := by
      rw [List.countP_eq_zero]
      intro c hc
      simp [hch c hc]
    simp only [countInvoking, List.countP_append, List.countP_cons, hz]
    simp

/-- Claim C9: in every state the traversal can reach from the initial one
(a full semaphore of CONCURRENCY_LIMIT slots and the single waiting root
task), the free permits and the in-flight external invocations sum to
exactly CONCURRENCY_LIMIT — so the permit is held precisely for the
duration of an external call, not for parsing or recursion — and hence
the number of in-flight invocations never exceeds CONCURRENCY_LIMIT. -/
theorem c9_semaphore_bound (s : SchedState) (h : SchedReachable initState s) :
    s.permits + countInvoking s = CONCURRENCY_LIMIT ∧
    countInvoking s ≤ CONCURRENCY_LIMIT := by
  induction h with
  | refl => exact ⟨by decide, by decide⟩
  | tail hr hstep ih =>
    obtain ⟨ih1, ih2⟩ := ih
    have hinv := sched_step_invariant hstep
    constructor <;> omega

/-- Witness for claim C9 at the state reached after the root task
acquires a permit and begins its external invocation. -/
theorem c9_semaphore_bound_witness :
    (SchedState.mk 9 [TaskPhase.invoking]).permits +
        countInvoking (SchedState.mk 9 [TaskPhase.invoking]) = CONCURRENCY_LIMIT ∧
      countInvoking (SchedState.mk 9 [TaskPhase.invoking]) ≤ CONCURRENCY_LIMIT :=
  c9_semaphore_bound ⟨9, [TaskPhase.invoking]⟩
    (SchedReachable.tail SchedReachable.refl (SchedStep.acquire 9 [] []))

end VerdiLLM
